import Mathlib

/-!
Verification of the azrouter data-normalization and settings-mutation core.

The JSON payloads the appliance produces are modelled by the inductive type
`Json` below: mappings are association lists in insertion order (Python
dicts preserve insertion order), sequences are lists, and the scalar leaves
are null, booleans, integers and strings (the appliance payloads carry
integer numerics).  Python dict operations (`get`, item assignment,
`setdefault`) are embedded as pure functions on association lists, and the
in-place mutations of the source are embedded as explicit value
transformations: a function returns the post-state of the object the
source mutates.  Fallible Python statements (attribute errors, failed
casts) are embedded with `Option` or a dedicated outcome type.
-/
inductive Json where
  | null : Json
  | bool : Bool → Json
  | int : Int → Json
  | str : String → Json
  | obj : List (String × Json) → Json
  | arr : List Json → Json

/-- Python dict lookup `d.get(k)`: first binding of the key, if any
(association lists built from real payloads have unique keys). -/
def objGet : List (String × Json) → String → Option Json
  | [], _ => none
  | (k', v') :: rest, k => if k' = k then some v' else objGet rest k

/-- Python dict item assignment `d[k] = v`: replaces the value in place when
the key is present (its position is preserved), otherwise appends the new
binding at the end, exactly as Python insertion order behaves. -/
def setKey : List (String × Json) → String → Json → List (String × Json)
  | [], k, v => [(k, v)]
  | (k', v') :: rest, k, v =>
      if k' = k then (k, v) :: rest else (k', v') :: setKey rest k v

/-- Python `d.setdefault(k, dflt)`: returns the stored value and the
post-state of the dict (unchanged when the key was present, extended with
the default otherwise). -/
def setdefaultObj (fs : List (String × Json)) (k : String) (d : Json) :
    Json × List (String × Json) :=
  match objGet fs k with
  | some v => (v, fs)
  | none => (d, fs ++ [(k, d)])

/-- Python truthiness of a JSON value (`bool(x)`). -/
def pyTruthy : Json → Bool
  | .null => false
  | .bool b => b
  | .int n => n != 0
  | .str s => s != ""
  | .obj fs => !fs.isEmpty
  | .arr xs => !xs.isEmpty

def Json.isObj : Json → Bool
  | .obj _ => true
  | _ => false

def Json.isNull : Json → Bool
  | .null => true
  | _ => false

/-- Path-segment join used by the flatten helper of
`AzRouterClient.async_get_all_data` (api.py): `f"{base}.{k}" if base else k`. -/
def joinKey (base k : String) : String :=
  if base = "" then k else base ++ "." ++ k

mutual

/-- The `_flatten` helper of `AzRouterClient.async_get_all_data` (api.py):
recurses into mappings in insertion order and into sequences by increasing
index, and emits one `(path, value)` pair per scalar leaf.  The source
appends to an accumulator list; the embedding returns the emitted list,
with `++` placing emissions in the identical order. -/
def flatten : Json → String → List (String × Json)
  | .obj fs, base => flattenFields fs base
  | .arr xs, base => flattenItems xs base 0
  | v, base => [(base, v)]

def flattenFields : List (String × Json) → String → List (String × Json)
  | [], _ => []
  | (k, v) :: rest, base => flatten v (joinKey base k) ++ flattenFields rest base

def flattenItems : List Json → String → Nat → List (String × Json)
  | [], _, _ => []
  | v :: rest, base, i =>
      flatten v (joinKey base (toString i)) ++ flattenItems rest base (i + 1)

end

mutual

/-- Pre-order depth-first enumeration of the scalar leaves of a JSON value
(the traversal order `_flatten` uses). -/
def leaves : Json → List Json
  | .obj fs => leavesFields fs
  | .arr xs => leavesItems xs
  | v => [v]

def leavesFields : List (String × Json) → List Json
  | [] => []
  | (_, v) :: rest => leaves v ++ leavesFields rest

def leavesItems : List Json → List Json
  | [] => []
  | v :: rest => leaves v ++ leavesItems rest

end

/-- The number of scalar leaves of a JSON value. -/
def leafCount (j : Json) : Nat := (leaves j).length

/-!
Polling aggregator: `AzRouterClient.async_get_all_data` (api.py).  The four
endpoint reads are issued through `asyncio.gather(..., return_exceptions=True)`;
each read either raises (modelled `Except.error ()`) or returns a parsed JSON
value (`Except.ok j`, with the transport layer already substituting `{}` for a
non-JSON body).  The per-endpoint getters coerce unexpected shapes before the
gather, and `async_get_all_data` re-checks each gathered result with
`isinstance`, so every section degrades to an empty default instead of
propagating an error.
-/
/-- Outcome of awaiting one endpoint read inside the gather. -/
abbrev Fetch := Except Unit Json

/-- `AzRouterClient.async_get_status` (api.py): dict payload, else `{}`. -/
def async_get_status (r : Fetch) : Fetch :=
  r.map (fun d => if d.isObj then d else .obj [])

/-- `AzRouterClient.async_get_power` (api.py): dict payload, else `{}`. -/
def async_get_power (r : Fetch) : Fetch :=
  r.map (fun d => if d.isObj then d else .obj [])

/-- `AzRouterClient.async_get_settings` (api.py): dict payload, else `{}`. -/
def async_get_settings (r : Fetch) : Fetch :=
  r.map (fun d => if d.isObj then d else .obj [])

/-- `AzRouterClient.async_get_devices` (api.py): accepts a bare list, or a
dict with a list under the key `devices`, and degrades anything else to the
empty list. -/
def async_get_devices (r : Fetch) : Fetch :=
  r.map (fun d =>
    match d with
    | .arr xs => .arr xs
    | .obj fs =>
        match objGet fs "devices" with
        | some (.arr xs) => .arr xs
        | _ => .arr []
    | _ => .arr [])

/-- The `power` local of `async_get_all_data`: the gathered result when it is
a dict, `{}` otherwise (in particular when the read raised). -/
def powerSection (rP : Fetch) : Json :=
  match async_get_power rP with
  | .ok j => if j.isObj then j else .obj []
  | .error _ => .obj []

/-- The `status` local of `async_get_all_data`. -/
def statusSection (rS : Fetch) : Json :=
  match async_get_status rS with
  | .ok j => if j.isObj then j else .obj []
  | .error _ => .obj []

/-- The `devices` local of `async_get_all_data`: the gathered result when it
is a list, `[]` otherwise. -/
def devicesSection (rD : Fetch) : List Json :=
  match async_get_devices rD with
  | .ok (.arr xs) => xs
  | _ => []

/-- The `settings` local of `async_get_all_data`. -/
def settingsSection (rSet : Fetch) : Json :=
  match async_get_settings rSet with
  | .ok j => if j.isObj then j else .obj []
  | .error _ => .obj []

/-- The combined snapshot dict returned by `async_get_all_data` (api.py),
with its three keys `master_data`, `devices`, `settings`. -/
structure AllData where
  master_data : List (String × Json)
  devices : List Json
  settings : Json

/-- `AzRouterClient.async_get_all_data` (api.py): coerces the four gathered
results and assembles the snapshot.  The source flattens the power section
first (`_flatten(power, "power", master_list)`) and the status section
second. -/
def async_get_all_data (rP rS rD rSet : Fetch) : AllData :=
  { master_data := flatten (powerSection rP) "power" ++ flatten (statusSection rS) "status"
    devices := devicesSection rD
    settings := settingsSection rSet }

/-!
PathReader: `_dig` and `_get_value` (devices/helpers.py).  Python represents
both a missing key and a stored JSON null as `None`, so `_dig` returns the
reached value with `Json.null` doubling as the absent marker, exactly as the
source conflates them; `_get_value` treats a null result as unresolved and
falls through to the next root.
-/
/-- The loop body of `_dig` (devices/helpers.py) over the split path:
returns `Json.null` (Python `None`) as soon as the current value is not a
mapping or the segment is missing. -/
def digSegs : Json → List String → Json
  | cur, [] => cur
  | cur, part :: rest =>
      match cur with
      | .obj fs =>
          match objGet fs part with
          | some v => digSegs v rest
          | none => .null
      | _ => .null

/-- Python `path.split(".")`: splits on every dot, keeping empty segments
(`"a..b"` gives `["a", "", "b"]`, `""` gives `[""]`). -/
def splitDotsAux : List Char → List Char → List String
  | [], acc => [String.mk acc.reverse]
  | c :: rest, acc =>
      if c = '.' then String.mk acc.reverse :: splitDotsAux rest []
      else splitDotsAux rest (c :: acc)

/-- Python `path.split(".")` on a string. -/
def splitDots (s : String) : List String := splitDotsAux s.toList []

/-- `_dig(d, path)` (devices/helpers.py): dot-path traversal of a nested
mapping, `path.split(".")` then the segment loop. -/
def dig (d : Json) (path : String) : Json :=
  digSegs d (splitDots path)

/-- One fallback-root attempt of `_get_value`: `payload.get(root_key)` must
be a dict, and a dig result of `None` falls through. -/
def rootValue (fs : List (String × Json)) (rk : String) (path : String) : Json :=
  match objGet fs rk with
  | some (.obj rfs) => dig (.obj rfs) path
  | _ => .null

/-- Whether a fallback root resolves the path to a non-null value (the only
notion of resolution the source can express, since `None` encodes both
absence and JSON null). -/
def resolvesUnder (fs : List (String × Json)) (rk : String) (path : String) : Bool :=
  !(rootValue fs rk path).isNull

/-- The two fallback loops of `_get_value` (devices/helpers.py), fused over
the concatenated root list: the known roots `status`, `power`, `settings`
are tried first, then the optional extra roots, and the first non-null dig
under a dict-valued root is returned. -/
def tryRoots (fs : List (String × Json)) (path : String) : List String → Json
  | [] => .null
  | rk :: rest =>
      match objGet fs rk with
      | some (.obj rfs) =>
          let v := dig (.obj rfs) path
          if v.isNull then tryRoots fs path rest else v
      | _ => tryRoots fs path rest

/-- The fixed fallback-root order of `_get_value`: the three well-known
roots, then the caller-supplied extra roots. -/
def knownRoots (extra : List String) : List String :=
  ["status", "power", "settings"] ++ extra

/-- `_get_value(payload, path, extra_roots)` (devices/helpers.py): direct
dig first, then the fallback roots in order; non-dict payloads yield `None`
immediately and nothing ever raises. -/
def get_value (payload : Json) (path : String) (extra : List String) : Json :=
  match payload with
  | .obj fs =>
      let v := dig payload path
      if v.isNull then tryRoots fs path (knownRoots extra) else v
  | _ => .null

/-- Concrete payload for the C6 witness: the key `x` is present both at top
level and under the fallback root `status`; `y` only under `status`; `z`
nowhere. -/
def fieldsC6 : List (String × Json) :=
  [("x", .int 1), ("status", .obj [("x", .int 2), ("y", .int 3)])]

/-!
Device settings patching.  `AzRouterClient.async_set_device_type_1_power_setting`
(api.py) locates the device in a freshly fetched roster, normalizes the value
with `int(round(float(value)))`, and patches the located record in place;
the number entities (devices/device_type_1/number.py) instead deep-copy the
coordinator record and patch the copy in their debounced `_send_later`
bodies.
-/
/-- The incoming write value (`value: int | float`): either a numeric value,
modelled as a rational (every Python float at an integer-plus-half boundary
is exactly representable), or a value on which `float(value)` raises. -/
inductive PyVal where
  | num : ℚ → PyVal
  | nonNum : PyVal

/-- Python 3 `round(x)` with no digits argument: nearest integer, ties to
the even neighbor (banker's rounding). -/
def pyRound (q : ℚ) : Int :=
  if q - ⌊q⌋ < 1/2 then ⌊q⌋
  else if 1/2 < q - ⌊q⌋ then ⌊q⌋ + 1
  else if ⌊q⌋ % 2 = 0 then ⌊q⌋ else ⌊q⌋ + 1

/-- Step 3 of `async_set_device_type_1_power_setting` (api.py):
`ival = int(round(float(value)))`, with the enclosing try/except mapping a
failed coercion to `none`. -/
def normalizeValue : PyVal → Option Int
  | .num q => some (pyRound q)
  | .nonNum => none

/-- Python `str(x)` for the payload values that can sit under `deviceType`.
Container reprs are abbreviated: the caller only compares the result with
the literal `"1"`, and no container repr can equal it. -/
def pyStr : Json → String
  | .null => "None"
  | .bool true => "True"
  | .bool false => "False"
  | .int n => toString n
  | .str s => s
  | .obj _ => "{...}"
  | .arr _ => "[...]"

/-- Python `int(x)` on a JSON value: identity on integers, 0/1 on booleans,
decimal parse on strings (raising, hence `none`, when unparsable), and a
raise on null and containers. -/
def pyIntCast : Json → Option Int
  | .int n => some n
  | .bool b => some (if b then 1 else 0)
  | .str s => s.trim.toInt?
  | _ => none

/-- One iteration of the device-locating loop (step 2 of
`async_set_device_type_1_power_setting`): `some fs` when `dev` is the
matching dict, `none` when it does not match or any lookup raised (the
loop body is wrapped in try/except-continue). -/
def matchesType1 (device_id : Int) (dev : Json) : Option (List (String × Json)) :=
  match dev with
  | .obj fs =>
      let dt := pyStr ((objGet fs "deviceType").getD .null)
      let common := (objGet fs "common").getD (.obj [])
      let common := if pyTruthy common then common else Json.obj []
      match common with
      | .obj cfs =>
          match pyIntCast ((objGet cfs "id").getD (.int (-1))) with
          | some cid => if dt = "1" && cid == device_id then some fs else none
          | none => none
      | _ => none
  | _ => none

/-- The device-locating loop of `async_set_device_type_1_power_setting`:
first match wins. -/
def findDeviceType1 : List Json → Int → Option (List (String × Json))
  | [], _ => none
  | d :: rest, device_id =>
      match matchesType1 device_id d with
      | some fs => some fs
      | none => findDeviceType1 rest device_id

/-- The profile-entry loop skeleton: applies the per-entry update in order
and propagates the first raise (`none`). -/
def mapOption {a b : Type} (f : a → Option b) : List a → Option (List b)
  | [] => some []
  | x :: rest =>
      match f x with
      | none => none
      | some y =>
          match mapOption f rest with
          | none => none
          | some ys => some (y :: ys)

/-- One profile entry update, `p = entry.setdefault("power", {})` followed
by `p[key] = ival`: `none` when the entry is not a dict or its `power`
value is a non-dict (both raise in Python). -/
def patchEntryPower (key : String) (ival : Int) (e : Json) : Option Json :=
  match e with
  | .obj efs =>
      match objGet efs "power" with
      | some (.obj pfs) =>
          some (.obj (setKey efs "power" (.obj (setKey pfs key (.int ival)))))
      | some _ => none
      | none => some (.obj (setKey efs "power" (.obj [(key, .int ival)])))
  | _ => none

/-- Outcome of the API-client setter: an exception propagated, an early
return without a POST, or a POST of `payload` leaving the located record
in state `rootAfter`. -/
inductive PatchOutcome where
  | raised : PatchOutcome
  | noWrite : PatchOutcome
  | posted : List (String × Json) → Json → PatchOutcome

def PatchOutcome.payload : PatchOutcome → Option Json
  | .posted _ p => some p
  | _ => none

def PatchOutcome.recordAfter : PatchOutcome → Option (List (String × Json))
  | .posted r _ => some r
  | _ => none

def PatchOutcome.isNoWrite : PatchOutcome → Bool
  | .noWrite => true
  | _ => false

/-- Steps 4 and 5 of `async_set_device_type_1_power_setting` (api.py) for a
located record `root` and a normalized value `ival`.  The source mutates
`root` in place (`root.setdefault("power", {})`, `power_root["maxPower"] = ival`,
`entry.setdefault("power", {})`); the embedding returns the record's
post-state inside the outcome.  `settings_list = root.get("settings") or []`
with the `isinstance` re-check degrades a missing, falsy or non-list value
to the empty list, and for a non-`maxPower` path an empty `settings_list`
aborts the write.  The entry loop writes through into the record exactly
when the record's `settings` value is a list. -/
def applyTypeOnePatch (root : List (String × Json)) (device_id : Int)
    (path : String) (ival : Int) : PatchOutcome :=
  let settingsRaw := (objGet root "settings").getD .null
  let settingsList : List Json :=
    match settingsRaw with
    | .arr xs => xs
    | _ => []
  if path = "maxPower" then
    match setdefaultObj root "power" (.obj []) with
    | (Json.obj pfs, root₁) =>
        let root₂ := setKey root₁ "power" (.obj (setKey pfs "maxPower" (.int ival)))
        match mapOption (patchEntryPower "max" ival) settingsList with
        | none => .raised
        | some patched =>
            let rootAfter :=
              match settingsRaw with
              | .arr _ => setKey root₂ "settings" (.arr patched)
              | _ => root₂
            .posted rootAfter (Json.obj [
              ("deviceType", .str "1"),
              ("common", (objGet rootAfter "common").getD (.obj [("id", .int device_id)])),
              ("power", (objGet rootAfter "power").getD (.obj [])),
              ("settings", .arr patched)])
    | (_, _) => .raised
  else
    if settingsList.isEmpty then .noWrite
    else
      match mapOption (patchEntryPower path ival) settingsList with
      | none => .raised
      | some patched =>
          let rootAfter :=
            match settingsRaw with
            | .arr _ => setKey root "settings" (.arr patched)
            | _ => root
          .posted rootAfter (Json.obj [
            ("deviceType", .str "1"),
            ("common", (objGet rootAfter "common").getD (.obj [("id", .int device_id)])),
            ("power", (objGet rootAfter "power").getD (.obj [])),
            ("settings", .arr patched)])

/-- `async_set_device_type_1_power_setting` (api.py) given an already
fetched roster: locate the device (not found aborts), normalize the value
(failed coercion aborts with a logged warning, no exception), then patch
and post. -/
def asyncSetDeviceType1PowerSetting (devices : List Json) (device_id : Int)
    (path : String) (value : PyVal) : PatchOutcome :=
  match findDeviceType1 devices device_id with
  | none => .noWrite
  | some root =>
      match normalizeValue value with
      | none => .noWrite
      | some ival => applyTypeOnePatch root device_id path ival

mutual

/-- `copy.deepcopy` on a JSON value: a structural rebuild. -/
def deepcopy : Json → Json
  | .null => .null
  | .bool b => .bool b
  | .int n => .int n
  | .str s => .str s
  | .obj fs => .obj (deepcopyFields fs)
  | .arr xs => .arr (deepcopyItems xs)

def deepcopyFields : List (String × Json) → List (String × Json)
  | [] => []
  | (k, v) :: rest => (k, deepcopy v) :: deepcopyFields rest

def deepcopyItems : List Json → List Json
  | [] => []
  | v :: rest => deepcopy v :: deepcopyItems rest

end

/-- The two-entry placeholder list `[{"power": {}}, {"power": {}}]` the
number entities synthesize for a missing or empty settings array. -/
def freshEntryPair : List Json :=
  [.obj [("power", .obj [])], .obj [("power", .obj [])]]

/-- The patching part of `DeviceType1TempBase._send_later`
(devices/device_type_1/number.py), applied to the deep copy of the
coordinator record: `setdefault("settings", [])`, replacement by the
two-entry placeholder when non-list or empty, then the per-entry power
write of `_setting_key`.  Returns the posted payload, `none` when an entry
update raises. -/
def tempPatchCopy (fs : List (String × Json)) (key : String) (ival : Int) :
    Option Json :=
  match setdefaultObj fs "settings" (.arr []) with
  | (sv, fs₁) =>
      let entries : List Json :=
        match sv with
        | .arr xs => if xs.isEmpty then freshEntryPair else xs
        | _ => freshEntryPair
      match mapOption (patchEntryPower key ival) entries with
      | none => none
      | some patched => some (.obj (setKey fs₁ "settings" (.arr patched)))

/-- `DeviceType1TempBase._send_later` acting on the coordinator record
`dev`: the returned pair is the post-state of `dev` and the payload posted.
The body's only use of `dev` is `copy.deepcopy(dev)`; every mutation
targets the copy, so the record's post-state is its pre-state. -/
def tempSendLater (dev : Json) (key : String) (ival : Int) :
    Json × Option Json :=
  match deepcopy dev with
  | .obj fs => (dev, tempPatchCopy fs key ival)
  | _ => (dev, none)

/-- The patching part of `DeviceType1MaxPowerNumber._send_later`
(devices/device_type_1/number.py), applied to the deep copy of the
coordinator record: `power.maxPower` is written first, then
`settings[*].power.max`, synthesizing the two-entry placeholder when the
settings value is missing, non-list or empty. -/
def maxPowerPatchCopy (fs : List (String × Json)) (ival : Int) : Option Json :=
  match setdefaultObj fs "power" (.obj []) with
  | (Json.obj pfs, fs₁) =>
      let fs₂ := setKey fs₁ "power" (.obj (setKey pfs "maxPower" (.int ival)))
      match setdefaultObj fs₂ "settings" (.arr []) with
      | (sv, fs₃) =>
          let entries : List Json :=
            match sv with
            | .arr xs => xs
            | _ => []
          let entries := if entries.isEmpty then freshEntryPair else entries
          match mapOption (patchEntryPower "max" ival) entries with
          | none => none
          | some patched => some (.obj (setKey fs₃ "settings" (.arr patched)))
  | (_, _) => none

/-- `DeviceType1MaxPowerNumber._send_later` acting on the coordinator
record `dev`: post-state of `dev` and the posted payload. -/
def maxPowerSendLater (dev : Json) (ival : Int) : Json × Option Json :=
  match deepcopy dev with
  | .obj fs => (dev, maxPowerPatchCopy fs ival)
  | _ => (dev, none)

/-- The settings entries of a payload or record (empty when absent or not
a list). -/
def settingsEntries (p : Json) : List Json :=
  match p with
  | .obj fs =>
      match objGet fs "settings" with
      | some (.arr xs) => xs
      | _ => []
  | _ => []

/-- Integer stored under `power`.`key` of a record or profile entry. -/
def powerFieldInt (j : Json) (key : String) : Option Int :=
  match j with
  | .obj fs =>
      match objGet fs "power" with
      | some (.obj pfs) =>
          match objGet pfs key with
          | some (.int n) => some n
          | _ => none
      | _ => none
  | _ => none

/-- The settings value of a payload or record when it is a list, `none`
when absent or not a list. -/
def settingsListOf (p : Json) : Option (List Json) :=
  match p with
  | .obj fs =>
      match objGet fs "settings" with
      | some (.arr xs) => some xs
      | _ => none
  | _ => none

def rootC9 : List (String × Json) :=
  [("deviceType", .str "1"), ("common", .obj [("id", .int 24)]),
   ("power", .obj [("maxPower", .int 2000)]),
   ("settings", .arr [.obj [("power", .obj [("max", .int 2000)])]])]

def outcomeC9 : PatchOutcome := applyTypeOnePatch rootC9 24 "maxPower" 3000

def rootC1 : List (String × Json) :=
  [("deviceType", Json.str "1"), ("common", Json.obj [("id", Json.int 24)])]

def settingsEmptyOrMissing (fs : List (String × Json)) : Bool :=
  match objGet fs "settings" with
  | some (.arr xs) => xs.isEmpty
  | some _ => true
  | none => true

def powerDictOrMissing (fs : List (String × Json)) : Bool :=
  match objGet fs "power" with
  | some (.obj _) => true
  | some _ => false
  | none => true

/-!
Debounced write coalescing: `DeviceNumberBase.async_set_native_value`
(devices/number.py) and `AzRouterMasterTargetPowerNumber.async_set_native_value`
(devices/master/number.py) share one mechanism.  A proposal stores the value
in `_pending_value`, cancels a still-pending `_debounce_task` and schedules a
fresh task; the task sleeps for the debounce window and, if it was not
cancelled, sends `_pending_value`.  The embedding gives each scheduled task
a fresh identifier: `fire id` is the resumption of task `id` after its
sleep, and a cancelled task (`current ≠ some id`) resumes into
`CancelledError` and performs nothing.  Actions record the externally
visible operations of the fire path: the network write of the sent value
and a coordinator refresh request (which the switch entities issue after
their immediate writes, and the debounced number writers never do).
-/
structure DebState where
  pending : Option Int
  current : Option Nat
  nextId : Nat
deriving DecidableEq

inductive DebEvent where
  | propose : Int → DebEvent
  | fire : Nat → DebEvent

inductive DebAction where
  | write : Int → DebAction
  | requestRefresh : DebAction
deriving DecidableEq

/-- One event of the per-entity debounce mechanism: `propose v` is
`async_set_native_value` after clamping (store pending, cancel the prior
task, schedule a new one); `fire id` is task `id` waking from its sleep
(`_send_later` after `asyncio.sleep`): a write of the pending value happens
only when the task is still the current one and a pending value exists. -/
def debStep (s : DebState) (e : DebEvent) : DebState × List DebAction :=
  match e with
  | .propose v =>
      ({ pending := some v, current := some s.nextId, nextId := s.nextId + 1 }, [])
  | .fire id =>
      if s.current = some id then
        match s.pending with
        | none => ({ s with current := none }, [])
        | some v => ({ s with current := none }, [.write v])
      else (s, [])

/-- Runs a sequence of events, concatenating the emitted actions. -/
def debRun (s : DebState) : List DebEvent → DebState × List DebAction
  | [] => (s, [])
  | e :: es =>
      ((debRun (debStep s e).1 es).1, (debStep s e).2 ++ (debRun (debStep s e).1 es).2)

/-- The entity state before any proposal. -/
def debInit : DebState := { pending := none, current := none, nextId := 0 }

mutual

theorem flatten_map_snd : ∀ (j : Json) (base : String),
    (flatten j base).map Prod.snd = leaves j
  | .null, _ => rfl
  | .bool _, _ => rfl
  | .int _, _ => rfl
  | .str _, _ => rfl
  | .obj fs, base => by
      rw [flatten, leaves]; exact flattenFields_map_snd fs base
  | .arr xs, base => by
      rw [flatten, leaves]; exact flattenItems_map_snd xs base 0

theorem flattenFields_map_snd : ∀ (fs : List (String × Json)) (base : String),
    (flattenFields fs base).map Prod.snd = leavesFields fs
  | [], _ => rfl
  | (k, v) :: rest, base => by
      rw [flattenFields, leavesFields, List.map_append,
        flatten_map_snd v (joinKey base k), flattenFields_map_snd rest base]

theorem flattenItems_map_snd : ∀ (xs : List Json) (base : String) (i : Nat),
    (flattenItems xs base i).map Prod.snd = leavesItems xs
  | [], _, _ => rfl
  | v :: rest, base, i => by
      rw [flattenItems, leavesItems, List.map_append,
        flatten_map_snd v (joinKey base (toString i)),
        flattenItems_map_snd rest base (i + 1)]

end

/-- Claim C5: `flatten` emits exactly one pair per scalar leaf (output length
equals the leaf count), and the emitted values, in output order, are
exactly the pre-order depth-first enumeration of the scalar leaves.
`flatten` is a total Lean function, so it is deterministic and has no
error conditions. -/
theorem flatten_leaf_complete_preorder (j : Json) (base : String) :
    (flatten j base).length = leafCount j ∧
      (flatten j base).map Prod.snd = leaves j := by
  refine ⟨?_, flatten_map_snd j base⟩
  have h := congrArg List.length (flatten_map_snd j base)
  simpa [leafCount] using h

theorem tryRoots_of_all_unresolved (fs : List (String × Json)) (path : String) :
    ∀ rs : List String, (∀ r ∈ rs, resolvesUnder fs r path = false) →
      tryRoots fs path rs = .null := by
  intro rs
  induction rs with
  | nil => intro _; rfl
  | cons rk rest ih =>
      intro h
      have hrk := h rk (by simp)
      have hrest : ∀ r ∈ rest, resolvesUnder fs r path = false := by
        intro r hr; exact h r (by simp [hr])
      rw [tryRoots]
      cases hg : objGet fs rk with
      | none =>
          simp only [resolvesUnder, rootValue, hg] at hrk
          exact ih hrest
      | some v =>
          cases v with
          | obj rfs =>
              simp only [resolvesUnder, rootValue, hg] at hrk
              have : (dig (.obj rfs) path).isNull = true := by
                cases hn : (dig (.obj rfs) path).isNull with
                | true => rfl
                | false => rw [hn] at hrk; simp at hrk
              simp only [this, if_pos]
              exact ih hrest
          | null => simp only []; exact ih hrest
          | bool b => exact ih hrest
          | int n => exact ih hrest
          | str s => exact ih hrest
          | arr xs => exact ih hrest

theorem tryRoots_first_resolved (fs : List (String × Json)) (path : String)
    (rs₁ : List String) (rk : String) (rs₂ : List String)
    (h₁ : ∀ r ∈ rs₁, resolvesUnder fs r path = false)
    (h₂ : resolvesUnder fs rk path = true) :
    tryRoots fs path (rs₁ ++ rk :: rs₂) = rootValue fs rk path := by
  induction rs₁ with
  | nil =>
      simp only [List.nil_append, tryRoots]
      simp only [resolvesUnder, rootValue] at h₂ ⊢
      cases hg : objGet fs rk with
      | none => rw [hg] at h₂; simp [Json.isNull] at h₂
      | some v =>
          cases v with
          | obj rfs =>
              rw [hg] at h₂
              have : (dig (.obj rfs) path).isNull = false := by
                cases hn : (dig (.obj rfs) path).isNull with
                | false => rfl
                | true => rw [hn] at h₂; simp at h₂
              simp [this]
          | null => rw [hg] at h₂; simp [Json.isNull] at h₂
          | bool b => rw [hg] at h₂; simp [Json.isNull] at h₂
          | int n => rw [hg] at h₂; simp [Json.isNull] at h₂
          | str s => rw [hg] at h₂; simp [Json.isNull] at h₂
          | arr xs => rw [hg] at h₂; simp [Json.isNull] at h₂
  | cons r rest ih =>
      have hr := h₁ r (by simp)
      have hrest : ∀ x ∈ rest, resolvesUnder fs x path = false := by
        intro x hx; exact h₁ x (by simp [hx])
      rw [List.cons_append, tryRoots]
      cases hg : objGet fs r with
      | none => exact ih hrest
      | some v =>
          cases v with
          | obj rfs =>
              simp only [resolvesUnder, rootValue, hg] at hr
              have : (dig (.obj rfs) path).isNull = true := by
                cases hn : (dig (.obj rfs) path).isNull with
                | true => rfl
                | false => rw [hn] at hr; simp at hr
              simp only [this, if_pos]
              exact ih hrest
          | null => exact ih hrest
          | bool b => exact ih hrest
          | int n => exact ih hrest
          | str s => exact ih hrest
          | arr xs => exact ih hrest

/-- Claim C6: `_get_value` is a total function (never raises) and: a
non-dict payload yields absent; when the direct dig resolves (non-null in
the only sense the source can express, since Python `None` encodes both a
missing key and a stored JSON null) its value is returned no matter what
the fallback roots hold; when the direct dig does not resolve, the
fallback roots `status`, `power`, `settings` and then the extra roots are
tried in that fixed order and the first resolved value is returned; when
nothing resolves, absent (`None`) is returned. -/
theorem get_value_fallback_order (j : Json) (path : String) (extra : List String) :
    (j.isObj = false → get_value j path extra = Json.null)
    ∧ (∀ fs, j = Json.obj fs →
        (((dig j path).isNull = false → get_value j path extra = dig j path)
        ∧ (∀ rs₁ rk rs₂, knownRoots extra = rs₁ ++ rk :: rs₂ →
            (dig j path).isNull = true →
            (∀ r ∈ rs₁, resolvesUnder fs r path = false) →
            resolvesUnder fs rk path = true →
            get_value j path extra = rootValue fs rk path)
        ∧ ((dig j path).isNull = true →
            (∀ r ∈ knownRoots extra, resolvesUnder fs r path = false) →
            get_value j path extra = Json.null))) := by
  constructor
  · intro h
    cases j with
    | obj fs => simp [Json.isObj] at h
    | null => rfl
    | bool b => rfl
    | int n => rfl
    | str s => rfl
    | arr xs => rfl
  · intro fs hfs
    subst hfs
    refine ⟨?_, ?_, ?_⟩
    · intro h
      simp [get_value, h]
    · intro rs₁ rk rs₂ hsplit hnull h₁ h₂
      simp only [get_value, hnull, if_pos]
      rw [hsplit]
      exact tryRoots_first_resolved fs path rs₁ rk rs₂ h₁ h₂
    · intro hnull hall
      simp only [get_value, hnull, if_pos]
      exact tryRoots_of_all_unresolved fs path (knownRoots extra) hall

theorem get_value_fallback_order_witness :
    get_value (Json.obj fieldsC6) "x" [] = Json.int 1
    ∧ get_value (Json.obj fieldsC6) "y" [] = Json.int 3
    ∧ get_value (Json.obj fieldsC6) "z" [] = Json.null := by
  refine ⟨?_, ?_, ?_⟩
  · exact (((get_value_fallback_order (Json.obj fieldsC6) "x" []).2 fieldsC6 rfl).1
      (by decide)).trans rfl
  · exact (((get_value_fallback_order (Json.obj fieldsC6) "y" []).2 fieldsC6 rfl).2.1
      [] "status" ["power", "settings"] rfl (by decide)
      (by intro r hr; simp at hr) (by decide)).trans rfl
  · exact ((get_value_fallback_order (Json.obj fieldsC6) "z" []).2 fieldsC6 rfl).2.2
      (by decide) (by decide)

/-- Claim C4: `async_get_all_data` is a total function of the four gathered
read outcomes (no exception escapes: `gather` runs with
`return_exceptions=True` and every section is re-checked), and for every
combination of outcomes a failed or ill-typed read degrades to the empty
mapping (empty sequence for devices) while each succeeding well-typed read
appears fully populated: the conjuncts below instantiate each section with
a raised read, a malformed read, and a well-typed read in turn, holding
the other three sections fixed and arbitrary. -/
theorem all_data_partial_failure (rP rS rD rSet : Fetch)
    (pfs sfs setfs : List (String × Json)) (xs ys zs : List Json) (n : Int) :
    ((async_get_all_data rP (.error ()) rD rSet).master_data
        = flatten (powerSection rP) "power")
    ∧ ((async_get_all_data rP (.ok (.arr ys)) rD rSet).master_data
        = flatten (powerSection rP) "power")
    ∧ ((async_get_all_data rP (.ok (.obj sfs)) rD rSet).master_data
        = flatten (powerSection rP) "power" ++ flatten (.obj sfs) "status")
    ∧ ((async_get_all_data (.error ()) rS rD rSet).master_data
        = flatten (statusSection rS) "status")
    ∧ ((async_get_all_data (.ok (.obj pfs)) rS rD rSet).master_data
        = flatten (.obj pfs) "power" ++ flatten (statusSection rS) "status")
    ∧ ((async_get_all_data rP rS (.error ()) rSet).devices = [])
    ∧ ((async_get_all_data rP rS (.ok (.int n)) rSet).devices = [])
    ∧ ((async_get_all_data rP rS (.ok (.arr xs)) rSet).devices = xs)
    ∧ ((async_get_all_data rP rS rD (.error ())).settings = Json.obj [])
    ∧ ((async_get_all_data rP rS rD (.ok (.arr zs))).settings = Json.obj [])
    ∧ ((async_get_all_data rP rS rD (.ok (.obj setfs))).settings = Json.obj setfs) := by
  refine ⟨?_, ?_, ?_, ?_, ?_, ?_, ?_, ?_, ?_, ?_, ?_⟩ <;>
    simp [async_get_all_data, powerSection, statusSection, devicesSection,
      settingsSection, async_get_power, async_get_status, async_get_devices,
      async_get_settings, Json.isObj, flatten, flattenFields, Except.map]

/-- Claim C10, counterexample: with power payload `{"a": 1}` and status
payload `{"b": 2}`, the assembled `master_data` is the power flattening
followed by the status flattening, not status followed by power as the
claim states: the source calls `_flatten(power, "power", ...)` first. -/
theorem master_flat_order_counterexample :
    (async_get_all_data (.ok (.obj [("a", .int 1)])) (.ok (.obj [("b", .int 2)]))
        (.ok (.arr [])) (.ok (.obj []))).master_data
      ≠ flatten (statusSection (.ok (.obj [("b", .int 2)]))) "status"
          ++ flatten (powerSection (.ok (.obj [("a", .int 1)]))) "power" :=
  fun h => absurd (congrArg (List.map Prod.fst) h) (by decide)

/-- Claim C10, amended: for every status payload and power payload, the
assembled `master_data` equals the flattening of the power section under
the prefix `power.` concatenated with the flattening of the status section
under the prefix `status.`, in that order (power first). -/
theorem master_flat_power_then_status (pfs sfs : List (String × Json))
    (rD rSet : Fetch) :
    (async_get_all_data (.ok (.obj pfs)) (.ok (.obj sfs)) rD rSet).master_data
      = flatten (.obj pfs) "power" ++ flatten (.obj sfs) "status" := by
  simp [async_get_all_data, powerSection, statusSection, async_get_power,
    async_get_status, Json.isObj, Except.map]

mutual

theorem deepcopy_eq : ∀ j : Json, deepcopy j = j
  | .null => rfl
  | .bool _ => rfl
  | .int _ => rfl
  | .str _ => rfl
  | .obj fs => by rw [deepcopy, deepcopyFields_eq fs]
  | .arr xs => by rw [deepcopy, deepcopyItems_eq xs]

theorem deepcopyFields_eq : ∀ fs : List (String × Json), deepcopyFields fs = fs
  | [] => rfl
  | (k, v) :: rest => by
      rw [deepcopyFields, deepcopy_eq v, deepcopyFields_eq rest]

theorem deepcopyItems_eq : ∀ xs : List Json, deepcopyItems xs = xs
  | [] => rfl
  | v :: rest => by rw [deepcopyItems, deepcopy_eq v, deepcopyItems_eq rest]

end

theorem objGet_setKey_self (fs : List (String × Json)) (k : String) (v : Json) :
    objGet (setKey fs k v) k = some v := by
  induction fs with
  | nil => simp [setKey, objGet]
  | cons kv rest ih =>
      obtain ⟨k', v'⟩ := kv
      by_cases h : k' = k
      · subst h; simp [setKey, objGet]
      · simp [setKey, objGet, h, ih]

theorem objGet_setKey_ne (fs : List (String × Json)) (k k' : String) (v : Json)
    (h : k ≠ k') : objGet (setKey fs k v) k' = objGet fs k' := by
  induction fs with
  | nil => simp [setKey, objGet, h]
  | cons kv rest ih =>
      obtain ⟨k₀, v₀⟩ := kv
      by_cases h₀ : k₀ = k
      · subst h₀; simp [setKey, objGet, h]
      · simp [setKey, objGet, h₀, ih]

theorem objGet_append (fs gs : List (String × Json)) (k : String) :
    objGet (fs ++ gs) k =
      match objGet fs k with
      | some v => some v
      | none => objGet gs k := by
  induction fs with
  | nil => simp [objGet]
  | cons kv rest ih =>
      obtain ⟨k', v'⟩ := kv
      by_cases h : k' = k
      · subst h; simp [objGet]
      · simp [objGet, h, ih]

theorem mapOption_mem {a b : Type} (f : a → Option b) :
    ∀ (l : List a) (l' : List b), mapOption f l = some l' →
      ∀ y ∈ l', ∃ x ∈ l, f x = some y := by
  intro l
  induction l with
  | nil =>
      intro l' h y hy
      simp [mapOption] at h
      subst h; simp at hy
  | cons x rest ih =>
      intro l' h y hy
      rw [mapOption] at h
      cases hfx : f x with
      | none => rw [hfx] at h; exact absurd h (by simp)
      | some y₀ =>
          rw [hfx] at h
          cases hrest : mapOption f rest with
          | none => rw [hrest] at h; exact absurd h (by simp)
          | some ys =>
              rw [hrest] at h
              have hl : y₀ :: ys = l' := by simpa using h
              rw [← hl] at hy
              rcases List.mem_cons.mp hy with h1 | h1
              · exact ⟨x, by simp, by rw [hfx, h1]⟩
              · obtain ⟨x', hx', hfx'⟩ := ih ys hrest y h1
                exact ⟨x', by simp [hx'], hfx'⟩

theorem patchEntryPower_field (key : String) (ival : Int) (e e' : Json)
    (h : patchEntryPower key ival e = some e') :
    powerFieldInt e' key = some ival := by
  cases e with
  | obj efs =>
      rw [patchEntryPower] at h
      cases hp : objGet efs "power" with
      | none =>
          rw [hp] at h
          simp only [Option.some.injEq] at h
          subst h
          simp [powerFieldInt, objGet_setKey_self, objGet]
      | some pv =>
          rw [hp] at h
          cases pv with
          | obj pfs =>
              simp only [Option.some.injEq] at h
              subst h
              simp [powerFieldInt, objGet_setKey_self]
          | null => exact absurd h (by simp)
          | bool b => exact absurd h (by simp)
          | int n => exact absurd h (by simp)
          | str s => exact absurd h (by simp)
          | arr xs => exact absurd h (by simp)
  | null => exact absurd h (by simp [patchEntryPower])
  | bool b => exact absurd h (by simp [patchEntryPower])
  | int n => exact absurd h (by simp [patchEntryPower])
  | str s => exact absurd h (by simp [patchEntryPower])
  | arr xs => exact absurd h (by simp [patchEntryPower])

theorem setdefaultObj_get_other (fs : List (String × Json)) (k : String)
    (d : Json) (k' : String) (h : k ≠ k') :
    objGet (setdefaultObj fs k d).2 k' = objGet fs k' := by
  rw [setdefaultObj]
  cases hg : objGet fs k with
  | some v => rfl
  | none =>
      simp only [objGet_append, objGet, h]
      cases objGet fs k' <;> simp [objGet, h]

theorem mirroredPayload_fields (gs pfs : List (String × Json))
    (patched entries : List Json) (ival : Int)
    (hpow : objGet gs "power" = some (Json.obj (setKey pfs "maxPower" (Json.int ival))))
    (hset : objGet gs "settings" = some (Json.arr patched))
    (hmap : mapOption (patchEntryPower "max" ival) entries = some patched) :
    powerFieldInt (Json.obj gs) "maxPower" = some ival
    ∧ ∀ e ∈ settingsEntries (Json.obj gs), powerFieldInt e "max" = some ival := by
  constructor
  · simp [powerFieldInt, hpow, objGet_setKey_self]
  · intro e he
    simp only [settingsEntries, hset] at he
    obtain ⟨x, _, hfx⟩ := mapOption_mem _ entries patched hmap e he
    exact patchEntryPower_field "max" ival x e hfx

theorem maxPowerPatchCopy_fields (fs : List (String × Json)) (ival : Int)
    (p : Json) (h : maxPowerPatchCopy fs ival = some p) :
    powerFieldInt p "maxPower" = some ival
    ∧ ∀ e ∈ settingsEntries p, powerFieldInt e "max" = some ival := by
  rw [maxPowerPatchCopy] at h
  split at h
  next pfs fs₁ heq =>
    dsimp only at h
    cases hsd2 : setdefaultObj (setKey fs₁ "power"
        (Json.obj (setKey pfs "maxPower" (Json.int ival)))) "settings"
        (Json.arr []) with
    | mk sv fs₃ =>
      rw [hsd2] at h
      dsimp only at h
      split at h
      next hmap => simp at h
      next patched hmap =>
        simp only [Option.some.injEq] at h
        subst h
        refine mirroredPayload_fields _ pfs patched _ ival ?_ ?_ hmap
        · have hsnd : (setdefaultObj (setKey fs₁ "power"
              (Json.obj (setKey pfs "maxPower" (Json.int ival)))) "settings"
              (Json.arr [])).2 = fs₃ := by rw [hsd2]
          rw [objGet_setKey_ne _ _ _ _ (by decide), ← hsnd,
            setdefaultObj_get_other _ _ _ _ (by decide), objGet_setKey_self]
        · exact objGet_setKey_self _ _ _
  next => simp at h

theorem applyMaxPower_fields (root : List (String × Json)) (device_id ival : Int)
    (rootAfter : List (String × Json)) (payload : Json)
    (hpost : applyTypeOnePatch root device_id "maxPower" ival
      = PatchOutcome.posted rootAfter payload) :
    powerFieldInt payload "maxPower" = some ival
    ∧ ∀ e ∈ settingsEntries payload, powerFieldInt e "max" = some ival := by
  rw [applyTypeOnePatch] at hpost
  dsimp only at hpost
  split at hpost
  · split at hpost
    next pfs root₁ heq =>
      split at hpost
      next hmap => simp at hpost
      next patched hmap =>
        split at hpost
        next xs hsr =>
          cases hpost
          refine mirroredPayload_fields _ pfs patched _ ival ?_ ?_ hmap
          · simp [objGet, objGet_setKey_ne _ "settings" "power" _ (by decide),
              objGet_setKey_self]
          · simp [objGet]
        next hsr =>
          cases hpost
          refine mirroredPayload_fields _ pfs patched _ ival ?_ ?_ hmap
          · simp [objGet, objGet_setKey_self]
          · simp [objGet]
    next => simp at hpost
  · next hcond => exact absurd rfl hcond

/-- Claim C9: after a patch of the root-mirrored field maxPower, the patched
device record (the posted payload) satisfies the mirroring invariant: the
root value `power.maxPower` and the mirrored value `power.max` in every
entry of the settings array all equal the stored new value; this holds for
the API-client setter and for the number-entity builder. -/
theorem maxpower_mirroring (root : List (String × Json)) (device_id ival : Int)
    (rootAfter : List (String × Json)) (payload : Json)
    (hpost : applyTypeOnePatch root device_id "maxPower" ival
      = PatchOutcome.posted rootAfter payload) :
    (powerFieldInt payload "maxPower" = some ival
      ∧ ∀ e ∈ settingsEntries payload, powerFieldInt e "max" = some ival)
    ∧ ∀ (dev p : Json), maxPowerSendLater dev ival = (dev, some p) →
        powerFieldInt p "maxPower" = some ival
        ∧ ∀ e ∈ settingsEntries p, powerFieldInt e "max" = some ival := by
  refine ⟨applyMaxPower_fields root device_id ival rootAfter payload hpost, ?_⟩
  intro dev p hsend
  cases hdc : deepcopy dev with
  | obj fs =>
      rw [maxPowerSendLater, hdc] at hsend
      exact maxPowerPatchCopy_fields fs ival p (congrArg Prod.snd hsend)
  | null =>
      rw [maxPowerSendLater, hdc] at hsend
      exact absurd (congrArg Prod.snd hsend) (by simp)
  | bool b =>
      rw [maxPowerSendLater, hdc] at hsend
      exact absurd (congrArg Prod.snd hsend) (by simp)
  | int n =>
      rw [maxPowerSendLater, hdc] at hsend
      exact absurd (congrArg Prod.snd hsend) (by simp)
  | str s =>
      rw [maxPowerSendLater, hdc] at hsend
      exact absurd (congrArg Prod.snd hsend) (by simp)
  | arr xs =>
      rw [maxPowerSendLater, hdc] at hsend
      exact absurd (congrArg Prod.snd hsend) (by simp)

/-- Witness for C9 at a concrete record with one settings entry. -/
theorem maxpower_mirroring_witness :
    (powerFieldInt (outcomeC9.payload.getD Json.null) "maxPower" = some 3000
      ∧ ∀ e ∈ settingsEntries (outcomeC9.payload.getD Json.null),
          powerFieldInt e "max" = some 3000)
    ∧ powerFieldInt ((maxPowerSendLater (Json.obj rootC9) 3000).2.getD Json.null)
        "maxPower" = some 3000 := by
  have h := maxpower_mirroring rootC9 24 3000 (outcomeC9.recordAfter.getD [])
    (outcomeC9.payload.getD Json.null) rfl
  refine ⟨h.1, ?_⟩
  exact (h.2 (Json.obj rootC9)
    ((maxPowerSendLater (Json.obj rootC9) 3000).2.getD Json.null) rfl).1

/-- Claim C1, counterexample: the API-client power-setting write performs
no synthesis.  On a located device_type_1 record with no `settings` key it
posts a maxPower patch whose settings array has zero entries (not at least
two), and for a profile-only path it aborts without writing at all. -/
theorem settings_synthesis_counterexample :
    ((applyTypeOnePatch rootC1 24 "maxPower" 3000).payload.bind
        settingsListOf).map List.length = some 0
    ∧ (applyTypeOnePatch rootC1 24 "targetTemperature" 55).isNoWrite = true :=
  ⟨rfl, rfl⟩

theorem mapOption_fresh (key : String) (ival : Int) :
    mapOption (patchEntryPower key ival) freshEntryPair
      = some [Json.obj [("power", Json.obj [(key, Json.int ival)])],
              Json.obj [("power", Json.obj [(key, Json.int ival)])]] := rfl

theorem tempPatchCopy_empty (fs : List (String × Json)) (key : String) (ival : Int)
    (hempty : settingsEmptyOrMissing fs = true) :
    (tempPatchCopy fs key ival).bind settingsListOf
      = some [Json.obj [("power", Json.obj [(key, Json.int ival)])],
              Json.obj [("power", Json.obj [(key, Json.int ival)])]] := by
  rw [tempPatchCopy, setdefaultObj]
  unfold settingsEmptyOrMissing at hempty
  cases hg : objGet fs "settings" with
  | none =>
      dsimp only
      simp only [List.isEmpty_nil, eq_self_iff_true, if_true, mapOption_fresh]
      simp [settingsListOf, objGet_setKey_self]
  | some sv =>
      rw [hg] at hempty
      cases sv with
      | arr xs =>
          cases xs with
          | nil =>
              dsimp only
              simp only [List.isEmpty_nil, eq_self_iff_true, if_true, mapOption_fresh]
              simp [settingsListOf, objGet_setKey_self]
          | cons x rest => simp at hempty
      | null =>
          dsimp only
          rw [mapOption_fresh]
          simp [settingsListOf, objGet_setKey_self]
      | bool b =>
          dsimp only
          rw [mapOption_fresh]
          simp [settingsListOf, objGet_setKey_self]
      | int n =>
          dsimp only
          rw [mapOption_fresh]
          simp [settingsListOf, objGet_setKey_self]
      | str s =>
          dsimp only
          rw [mapOption_fresh]
          simp [settingsListOf, objGet_setKey_self]
      | obj gs =>
          dsimp only
          rw [mapOption_fresh]
          simp [settingsListOf, objGet_setKey_self]

theorem maxPowerPatchCopy_empty (fs : List (String × Json)) (ival : Int)
    (hempty : settingsEmptyOrMissing fs = true)
    (hpow : powerDictOrMissing fs = true) :
    (maxPowerPatchCopy fs ival).bind settingsListOf
      = some [Json.obj [("power", Json.obj [("max", Json.int ival)])],
              Json.obj [("power", Json.obj [("max", Json.int ival)])]] := by
  rw [maxPowerPatchCopy, setdefaultObj]
  unfold powerDictOrMissing at hpow
  unfold settingsEmptyOrMissing at hempty
  cases hp : objGet fs "power" with
  | none =>
      dsimp only
      have hq : objGet (setKey (fs ++ [("power", Json.obj [])]) "power"
          (Json.obj (setKey [] "maxPower" (Json.int ival)))) "settings"
          = objGet fs "settings" := by
        rw [objGet_setKey_ne _ _ _ _ (by decide), objGet_append]
        cases objGet fs "settings" <;> simp [objGet]
      rw [setdefaultObj, hq]
      cases hg : objGet fs "settings" with
      | none =>
          dsimp only
          simp only [List.isEmpty_nil, eq_self_iff_true, if_true, mapOption_fresh]
          simp [settingsListOf, objGet_setKey_self]
      | some sv =>
          rw [hg] at hempty
          cases sv with
          | arr xs =>
              cases xs with
              | nil =>
                  dsimp only
                  simp only [List.isEmpty_nil, eq_self_iff_true, if_true, mapOption_fresh]
                  simp [settingsListOf, objGet_setKey_self]
              | cons x rest => simp at hempty
          | null =>
              dsimp only
              simp only [List.isEmpty_nil, eq_self_iff_true, if_true, mapOption_fresh]
              simp [settingsListOf, objGet_setKey_self]
          | bool b =>
              dsimp only
              simp only [List.isEmpty_nil, eq_self_iff_true, if_true, mapOption_fresh]
              simp [settingsListOf, objGet_setKey_self]
          | int n =>
              dsimp only
              simp only [List.isEmpty_nil, eq_self_iff_true, if_true, mapOption_fresh]
              simp [settingsListOf, objGet_setKey_self]
          | str s =>
              dsimp only
              simp only [List.isEmpty_nil, eq_self_iff_true, if_true, mapOption_fresh]
              simp [settingsListOf, objGet_setKey_self]
          | obj gs =>
              dsimp only
              simp only [List.isEmpty_nil, eq_self_iff_true, if_true, mapOption_fresh]
              simp [settingsListOf, objGet_setKey_self]
  | some pv =>
      rw [hp] at hpow
      cases pv with
      | obj pfs =>
          dsimp only
          have hq : objGet (setKey fs "power"
              (Json.obj (setKey pfs "maxPower" (Json.int ival)))) "settings"
              = objGet fs "settings" := by
            rw [objGet_setKey_ne _ _ _ _ (by decide)]
          rw [setdefaultObj, hq]
          cases hg : objGet fs "settings" with
          | none =>
              dsimp only
              simp only [List.isEmpty_nil, eq_self_iff_true, if_true, mapOption_fresh]
              simp [settingsListOf, objGet_setKey_self]
          | some sv =>
              rw [hg] at hempty
              cases sv with
              | arr xs =>
                  cases xs with
                  | nil =>
                      dsimp only
                      simp only [List.isEmpty_nil, eq_self_iff_true, if_true, mapOption_fresh]
                      simp [settingsListOf, objGet_setKey_self]
                  | cons x rest => simp at hempty
              | null =>
                  dsimp only
                  simp only [List.isEmpty_nil, eq_self_iff_true, if_true, mapOption_fresh]
                  simp [settingsListOf, objGet_setKey_self]
              | bool b =>
                  dsimp only
                  simp only [List.isEmpty_nil, eq_self_iff_true, if_true, mapOption_fresh]
                  simp [settingsListOf, objGet_setKey_self]
              | int n =>
                  dsimp only
                  simp only [List.isEmpty_nil, eq_self_iff_true, if_true, mapOption_fresh]
                  simp [settingsListOf, objGet_setKey_self]
              | str s =>
                  dsimp only
                  simp only [List.isEmpty_nil, eq_self_iff_true, if_true, mapOption_fresh]
                  simp [settingsListOf, objGet_setKey_self]
              | obj gs =>
                  dsimp only
                  simp only [List.isEmpty_nil, eq_self_iff_true, if_true, mapOption_fresh]
                  simp [settingsListOf, objGet_setKey_self]
      | null => simp at hpow
      | bool b => simp at hpow
      | int n => simp at hpow
      | str s => simp at hpow
      | arr xs => simp at hpow

/-- Claim C1, amended: the two-entry synthesis is performed by the
number-entity patch builders, not by the API-client setter.  For the
temperature and max-power `_send_later` builders, whenever the record's
settings array is empty, missing, or not a list, the posted payload
carries exactly two placeholder profile entries, each with the written
field set to the stored value (in the `maxPowerSendLater` case provided
the record's `power` value is a dict or missing, since a non-dict `power`
raises before the settings stage).  The API-client setter instead posts an
empty settings array for maxPower and aborts for profile-only paths. -/
theorem settings_synthesis_amended (fs : List (String × Json)) (key : String)
    (ival : Int)
    (hempty : settingsEmptyOrMissing fs = true)
    (hpow : powerDictOrMissing fs = true) :
    ((tempSendLater (Json.obj fs) key ival).2.bind settingsListOf)
        = some [Json.obj [("power", Json.obj [(key, Json.int ival)])],
                Json.obj [("power", Json.obj [(key, Json.int ival)])]]
    ∧ ((maxPowerSendLater (Json.obj fs) ival).2.bind settingsListOf)
        = some [Json.obj [("power", Json.obj [("max", Json.int ival)])],
                Json.obj [("power", Json.obj [("max", Json.int ival)])]] := by
  constructor
  · have hstep : (tempSendLater (Json.obj fs) key ival).2 = tempPatchCopy fs key ival := by
      rw [tempSendLater, deepcopy, deepcopyFields_eq]
    rw [hstep]
    exact tempPatchCopy_empty fs key ival hempty
  · have hstep : (maxPowerSendLater (Json.obj fs) ival).2 = maxPowerPatchCopy fs ival := by
      rw [maxPowerSendLater, deepcopy, deepcopyFields_eq]
    rw [hstep]
    exact maxPowerPatchCopy_empty fs ival hempty hpow

/-- Witness for the amended C1 at a record with no settings key. -/
theorem settings_synthesis_amended_witness :
    ((tempSendLater (Json.obj [("deviceType", Json.str "1")]) "targetTemperature"
        55).2.bind settingsListOf)
        = some [Json.obj [("power", Json.obj [("targetTemperature", Json.int 55)])],
                Json.obj [("power", Json.obj [("targetTemperature", Json.int 55)])]]
    ∧ ((maxPowerSendLater (Json.obj [("deviceType", Json.str "1")]) 55).2.bind
        settingsListOf)
        = some [Json.obj [("power", Json.obj [("max", Json.int 55)])],
                Json.obj [("power", Json.obj [("max", Json.int 55)])]] :=
  settings_synthesis_amended [("deviceType", Json.str "1")] "targetTemperature" 55 rfl rfl

/-- Claim C2, counterexample: the API-client setter mutates the located
device record in place.  Patching maxPower to 3000 on a record whose
stored maxPower is 2000 leaves the record in a state different from its
pre-call value, so buildPatch is not non-mutating for every patch path. -/
theorem patch_nonmutation_counterexample :
    (applyTypeOnePatch rootC9 24 "maxPower" 3000).recordAfter ≠ some rootC9 :=
  fun h =>
    absurd (congrArg (fun o => o.bind (fun gs => powerFieldInt (Json.obj gs) "maxPower")) h)
      (by decide)

/-- Claim C2, amended: the number-entity patch builders are non-mutating:
they operate on `copy.deepcopy` of the coordinator record (a value-level
copy, proved structurally equal to the original), and the record's
post-state equals its pre-state.  The API-client setter instead patches
the freshly fetched record in place; that record is local to the call, not
a live reference into the snapshot. -/
theorem patch_nonmutation_amended (dev : Json) (key : String) (ival : Int) :
    (tempSendLater dev key ival).1 = dev
    ∧ (maxPowerSendLater dev ival).1 = dev
    ∧ deepcopy dev = dev := by
  refine ⟨?_, ?_, deepcopy_eq dev⟩
  · rw [tempSendLater]
    cases deepcopy dev <;> rfl
  · rw [maxPowerSendLater]
    cases deepcopy dev <;> rfl

/-- Claim C7, counterexample: the normalization `int(round(float(value)))`
uses Python 3 rounding, which is round-half-to-even, not
round-half-away-from-zero: 2.5 is stored as 2 (not 3) and -2.5 as -2
(not -3). -/
theorem rounding_counterexample :
    normalizeValue (PyVal.num (5/2)) = some 2
    ∧ normalizeValue (PyVal.num (5/2)) ≠ some 3
    ∧ normalizeValue (PyVal.num (-5/2)) = some (-2)
    ∧ normalizeValue (PyVal.num (-5/2)) ≠ some (-3) := by
  have h1 : pyRound (5/2) = 2 := by
    have hf : ⌊(5/2 : ℚ)⌋ = 2 := by norm_num [Int.floor_eq_iff]
    rw [pyRound, hf]
    norm_num
  have h2 : pyRound (-5/2) = -2 := by
    have hf : ⌊(-5/2 : ℚ)⌋ = -3 := by
      rw [Int.floor_eq_iff]
      norm_num
    rw [pyRound, hf]
    norm_num
  refine ⟨?_, ?_, ?_, ?_⟩
  · simp only [normalizeValue, h1]
  · simp only [normalizeValue, h1]
    decide
  · simp only [normalizeValue, h2]
  · simp only [normalizeValue, h2]
    decide

theorem pyRound_midpoint (n : Int) :
    pyRound ((n : ℚ) + 1/2) = if n % 2 = 0 then n else n + 1 := by
  have hf : ⌊(n : ℚ) + 1/2⌋ = n := by
    rw [Int.floor_eq_iff]
    constructor
    · linarith
    · linarith
  rw [pyRound, hf]
  have h1 : (n : ℚ) + 1/2 - (n : Int) = 1/2 := by ring
  rw [h1]
  norm_num

/-- Claim C7, amended: the incoming value is normalized to an integer via
round-half-to-even before storage (a value exactly halfway between
integers rounds to the even neighbor), and a non-numeric value that cannot
be coerced makes the whole setter a no-op: no write is sent and no
exception propagates. -/
theorem rounding_amended (n : Int) (devices : List Json) (device_id : Int)
    (path : String) :
    pyRound ((n : ℚ) + 1/2) = (if n % 2 = 0 then n else n + 1)
    ∧ asyncSetDeviceType1PowerSetting devices device_id path PyVal.nonNum
        = PatchOutcome.noWrite := by
  refine ⟨pyRound_midpoint n, ?_⟩
  rw [asyncSetDeviceType1PowerSetting]
  cases findDeviceType1 devices device_id <;> rfl

theorem debRun_append (s : DebState) (es₁ es₂ : List DebEvent) :
    debRun s (es₁ ++ es₂)
      = ((debRun (debRun s es₁).1 es₂).1,
         (debRun s es₁).2 ++ (debRun (debRun s es₁).1 es₂).2) := by
  induction es₁ generalizing s with
  | nil => simp [debRun]
  | cons e es ih => simp [debRun, ih]

theorem debRun_proposes (s : DebState) (v : Int) (vs : List Int) :
    debRun s ((v :: vs).map DebEvent.propose)
      = ({ pending := some (vs.getLastD v),
           current := some (s.nextId + vs.length),
           nextId := s.nextId + vs.length + 1 }, []) := by
  induction vs generalizing s v with
  | nil => simp [debRun, debStep, List.getLastD]
  | cons w ws ih =>
      rw [List.map_cons, debRun]
      simp only [debStep]
      rw [ih]
      simp only [Prod.mk.injEq, DebState.mk.injEq, Option.some.injEq,
        List.getLastD_cons, List.length_cons, List.nil_append, and_true,
        true_and, eq_self_iff_true]
      omega

/-- Claim C3: for every burst of proposals v, v1, ..., vn to one debounced
entity, each arriving within the debounce window of the previous one (so
no scheduled task fires in between and each proposal cancels its
predecessor's task), the run consisting of the proposals followed by the
surviving task's fire performs exactly one write, carrying the last
proposed value; no write happens during the proposals themselves, and a
fire of a cancelled (non-current) task is a no-op, so never more than one
write occurs. -/
theorem debounce_coalescing (v : Int) (vs : List Int) (s : DebState) (id : Nat)
    (hid : s.current ≠ some id) :
    (debRun debInit ((v :: vs).map DebEvent.propose)).2 = []
    ∧ (debRun debInit ((v :: vs).map DebEvent.propose
        ++ [DebEvent.fire (vs.length)])).2
      = [DebAction.write (vs.getLastD v)]
    ∧ debStep s (DebEvent.fire id) = (s, []) := by
  refine ⟨?_, ?_, ?_⟩
  · rw [debRun_proposes]
  · rw [debRun_append, debRun_proposes]
    simp [debRun, debStep, debInit]
  · rw [debStep]
    simp [hid]

/-- Witness for C3: proposing 1, 2, 3 and letting the window elapse yields
the single write of 3; a stale fire does nothing. -/
theorem debounce_coalescing_witness :
    (debRun debInit ([1, 2, 3].map DebEvent.propose)).2 = []
    ∧ (debRun debInit ([1, 2, 3].map DebEvent.propose ++ [DebEvent.fire 2])).2
        = [DebAction.write 3]
    ∧ debStep debInit (DebEvent.fire 7) = (debInit, []) :=
  debounce_coalescing 1 [2, 3] debInit 7 (by decide)

/-- Claim C8, counterexample: when the debounce window elapses the
`_send_later` bodies perform the single write of the pending value but do
not trigger any snapshot refresh request: the emitted action list after
propose 5 and the fire is exactly the write, with no refresh request in
it. -/
theorem write_then_refresh_counterexample :
    (debRun debInit [DebEvent.propose 5, DebEvent.fire 0]).2 = [DebAction.write 5]
    ∧ DebAction.requestRefresh ∉ (debRun debInit [DebEvent.propose 5, DebEvent.fire 0]).2 := by
  decide

/-- Claim C8, amended: whenever a debounce window elapses with no new
proposal (the firing task is still current) and a value is pending,
exactly one write of the last proposed value is performed and the task
slot is cleared; no downstream refresh request is emitted by the debounced
number writers, reconciliation being left to the next scheduled poll. -/
theorem fire_single_write_amended (v : Int) (id n : Nat) :
    debStep { pending := some v, current := some id, nextId := n } (DebEvent.fire id)
      = ({ pending := some v, current := none, nextId := n }, [DebAction.write v])
    ∧ DebAction.requestRefresh ∉ [DebAction.write v] := by
  refine ⟨?_, by simp⟩
  rw [debStep]
  simp
